import Mathlib

/-!
Shallow embedding of `src/tag_generator.py` (Stancryy/tag-generator).

The program scans an input directory for image files, skips those whose
sidecar `<stem>.txt` already exists in the output directory, sends the rest
to a remote tagging service one at a time, writes the returned tag string to
the sidecar file, logs per-image failures to a shared `_erros.log`, and
prints a final report.

The external world (directory listing, connection outcome, the remote
`predict` call, write failures, timestamps, elapsed time) is captured by an
`Env` record; the output directory's files and the error log are threaded
explicitly through the batch loop as state.
-/

/-- An entry of the input directory listing: a name together with whether it
is a regular file (mirrors `arq.is_file()` on a `Path` from `iterdir()`). -/
structure Entrada where
  name : String
  isFile : Bool
deriving DecidableEq, Repr

/-- `Config.EXTENSOES`: the accepted extension set (lower-case). -/
def EXTENSOES : List String := [".jpg", ".jpeg", ".png", ".gif", ".webp", ".bmp"]

/-- Index of the last occurrence of a character in a list, if any. -/
def lastIdxOf (c : Char) : List Char → Option Nat
  | [] => none
  | d :: resto =>
    match lastIdxOf c resto with
    | some i => some (i + 1)
    | none => if d = c then some 0 else none

/-- `PurePath.suffix` of CPython's `pathlib` for a bare file name: the part
from the last dot on, provided that dot is neither the first nor the last
character; otherwise the empty string. -/
def pathSuffix (nome : String) : String :=
  let cs := nome.toList
  match lastIdxOf '.' cs with
  | some i => if 0 < i ∧ i < cs.length - 1 then String.mk (cs.drop i) else ""
  | none => ""

/-- `PurePath.stem` of CPython's `pathlib` for a bare file name: the part
before the last dot, provided that dot is neither the first nor the last
character; otherwise the whole name. -/
def pathStem (nome : String) : String :=
  let cs := nome.toList
  match lastIdxOf '.' cs with
  | some i => if 0 < i ∧ i < cs.length - 1 then String.mk (cs.take i) else nome
  | none => nome

/-- The order `sorted(...)` uses on same-directory `Path`s: code-point
lexicographic comparison of the file names, phrased on the character lists
so that it evaluates (it coincides with `String` order, see
`String.le_iff_toList_le`). -/
def nomeLe (a b : String) : Prop := a.toList ≤ b.toList

instance : DecidableRel nomeLe := fun a b => inferInstanceAs (Decidable (a.toList ≤ b.toList))

instance : IsTotal String nomeLe := ⟨fun a b => le_total a.toList b.toList⟩

instance : IsTrans String nomeLe := ⟨fun _ _ _ => le_trans⟩

/-- `str.lower()`, character by character (`String.toLower` phrased on the
character list so that it evaluates). -/
def strLower (s : String) : String := String.mk (s.toList.map Char.toLower)

/-- `_listar_imagens`: the regular files of the input directory whose
lower-cased suffix is an accepted extension, sorted lexicographically
(`sorted(...)` on same-directory `Path`s compares their file names). -/
def listarImagens (entries : List Entrada) : List String :=
  List.insertionSort nomeLe
    ((entries.filter
      (fun a => a.isFile && EXTENSOES.contains (strLower (pathSuffix a.name)))).map
      (fun a => a.name))

/-- The output directory's regular files, as an association list from file
name to content. -/
abbrev Arquivos := List (String × String)

/-- Whether a file with the given name exists (`Path.exists()`). -/
def fsExists (fs : Arquivos) (p : String) : Bool := fs.any (fun e => e.1 = p)

/-- Content of a file, if present. -/
def fsLookup (fs : Arquivos) (p : String) : Option String :=
  (fs.find? (fun e => e.1 = p)).map (fun e => e.2)

/-- `open(p, "w").write(c)`: create the file or truncate and overwrite it. -/
def fsWrite (fs : Arquivos) (p c : String) : Arquivos :=
  if fsExists fs p then fs.map (fun e => if e.1 = p then (e.1, c) else e)
  else fs ++ [(p, c)]

/-- The sidecar path for an image name: `<stem>.txt` inside the output
directory (`Config.PASTA_SAIDA / f"<stem>.txt"`, keyed by file name since
all outputs live in the one directory). -/
def sidecarName (nome : String) : String := pathStem nome ++ ".txt"

/-- The environment a run observes: module availability, directory state,
the input listing, connection outcome, the remote service, write-failure
behaviour, the wall clock. -/
structure Env where
  gradioAvailable : Bool
  entradaExists : Bool
  saidaExists : Bool
  entries : List Entrada
  connect : Except String Unit
  predict : String → Except String (List String)
  writeErr : String → Option String
  timestamp : Nat → String
  initFiles : Arquivos
  initErrLog : List String
  tempoTotal : ℚ

/-- The mutable state of one run: the three counters of `self.stats`, the
output directory's files, the error log's lines, and the audit trail of
remote calls attempted. -/
structure St where
  sucesso : Nat
  falha : Nat
  ignorado : Nat
  files : Arquivos
  errLog : List String
  calls : List String
deriving DecidableEq, Repr

/-- One line of `_log_erro`: `[HH:MM:SS] <filename>: <error message>`. -/
def mkLogLine (ts nome msg : String) : String :=
  "[" ++ ts ++ "] " ++ nome ++ ": " ++ msg

/-- `_log_erro`: append one line to the shared error log; the timestamp is
the environment's clock reading at this append. -/
def logErro (env : Env) (nome msg : String) (st : St) : St :=
  { st with errLog := st.errLog ++ [mkLogLine (env.timestamp st.errLog.length) nome msg] }

/-- `resultado[0]` on the service's result tuple: its first element, or an
`IndexError` when the tuple is empty. -/
def primeiroElemento : List String → Except String String
  | [] => Except.error "tuple index out of range"
  | t :: _ => Except.ok t

/-- `_gerar_e_salvar`: call the remote service, take the first element of the
result, write it to the destination; any failure is caught, logged, and
reported as `false`. The remote call attempt is recorded in `calls`. -/
def gerarESalvar (env : Env) (nome destino : String) (st : St) : Bool × St :=
  let st1 : St := { st with calls := st.calls ++ [nome] }
  match env.predict nome with
  | Except.error e => (false, logErro env nome e st1)
  | Except.ok resultado =>
    match primeiroElemento resultado with
    | Except.error e => (false, logErro env nome e st1)
    | Except.ok tags =>
      match env.writeErr destino with
      | some e => (false, logErro env nome e st1)
      | none => (true, { st1 with files := fsWrite st1.files destino tags })

/-- One iteration of the `_processar_lote` loop body for one image name. -/
def processarItem (env : Env) (st : St) (nome : String) : St :=
  let destino := sidecarName nome
  if fsExists st.files destino then { st with ignorado := st.ignorado + 1 }
  else
    match gerarESalvar env nome destino st with
    | (true, st1) => { st1 with sucesso := st1.sucesso + 1 }
    | (false, st1) => { st1 with falha := st1.falha + 1 }

/-- `_processar_lote`: the strictly sequential loop over the sorted images. -/
def processarLote (env : Env) : List String → St → St
  | [], st => st
  | nome :: resto, st => processarLote env resto (processarItem env st nome)

/-- What the final report prints. `media` is `some` exactly when the mean
per-image time line is printed. -/
structure Relatorio where
  sucesso : Nat
  ignorado : Nat
  falha : Nat
  tempo : ℚ
  media : Option ℚ
deriving DecidableEq, Repr

/-- `_exibir_relatorio_final`: the counters, the elapsed time, and the mean
per-image time `tempo / max(total - ignorado, 1)`, printed only when at
least one success occurred. -/
def exibirRelatorioFinal (st : St) (tempo : ℚ) (totalArquivos : Nat) : Relatorio :=
  let media := tempo / ((max ((totalArquivos : ℤ) - (st.ignorado : ℤ)) 1 : ℤ) : ℚ)
  { sucesso := st.sucesso, ignorado := st.ignorado, falha := st.falha,
    tempo := tempo,
    media := if st.sucesso > 0 then some media else none }

/-- The directory-existence state `_verificar_pastas` reads and updates. -/
structure Pastas where
  entradaExists : Bool
  saidaExists : Bool
deriving DecidableEq, Repr

/-- `_verificar_pastas`: `false` when the input directory is missing;
otherwise create the output directory if absent and return `true`. -/
def verificarPastas (p : Pastas) : Bool × Pastas :=
  if p.entradaExists = false then (false, p)
  else if p.saidaExists = false then (true, { p with saidaExists := true })
  else (true, p)

/-- Observable outcome of `iniciar`: which early returns were taken, whether
a connection was attempted and how it ended, the final state, the report. -/
structure Resultado where
  pastasOk : Bool
  nenhumaImagem : Bool
  conexaoTentada : Bool
  falhaConexao : Option String
  loteProcessado : Bool
  pastas : Pastas
  st : St
  relatorio : Option Relatorio

/-- The state at the start of a run: zeroed counters, the pre-existing
output files and error log, no remote calls yet. -/
def estadoInicial (env : Env) : St :=
  { sucesso := 0, falha := 0, ignorado := 0,
    files := env.initFiles, errLog := env.initErrLog, calls := [] }

/-- `iniciar`: verify directories, list images, connect, process the batch,
report — with an early clean return at each failed stage. -/
def iniciar (env : Env) : Resultado :=
  let p0 : Pastas := { entradaExists := env.entradaExists, saidaExists := env.saidaExists }
  let st0 := estadoInicial env
  match verificarPastas p0 with
  | (false, p1) =>
    { pastasOk := false, nenhumaImagem := false, conexaoTentada := false,
      falhaConexao := none, loteProcessado := false, pastas := p1, st := st0,
      relatorio := none }
  | (true, p1) =>
    let imagens := listarImagens env.entries
    if imagens.isEmpty then
      { pastasOk := true, nenhumaImagem := true, conexaoTentada := false,
        falhaConexao := none, loteProcessado := false, pastas := p1, st := st0,
        relatorio := none }
    else
      match env.connect with
      | Except.error e =>
        { pastasOk := true, nenhumaImagem := false, conexaoTentada := true,
          falhaConexao := some e, loteProcessado := false, pastas := p1, st := st0,
          relatorio := none }
      | Except.ok _ =>
        let stF := processarLote env imagens st0
        { pastasOk := true, nenhumaImagem := false, conexaoTentada := true,
          falhaConexao := none, loteProcessado := true, pastas := p1, st := stF,
          relatorio := some (exibirRelatorioFinal stF env.tempoTotal imagens.length) }

/-- The whole process: exit code 1 when the `gradio_client` import fails,
otherwise run `iniciar` and exit 0. -/
def programa (env : Env) : Nat × Option Resultado :=
  if env.gradioAvailable then (0, some (iniciar env)) else (1, none)

/-- The message of the exception `_gerar_e_salvar` would catch for this
image, if any: the remote call's error, else the `IndexError` from an empty
result, else the write failure. -/
def falhaMsg (env : Env) (nome destino : String) : Option String :=
  match env.predict nome with
  | Except.error e => some e
  | Except.ok resultado =>
    match primeiroElemento resultado with
    | Except.error e => some e
    | Except.ok _ => env.writeErr destino

theorem fsExists_fsWrite (fs : Arquivos) (q c p : String) :
    fsExists (fsWrite fs q c) p = (fsExists fs p || p == q) := by
  by_cases h : fsExists fs q
  · have hmap : fsExists (fs.map (fun e => if e.1 = q then (e.1, c) else e)) p
        = fsExists fs p := by
      simp only [fsExists, List.any_map]
      congr 1
      funext e
      by_cases he : e.1 = q <;> simp [he]
    by_cases hpq : p = q
    · subst hpq
      simp [fsWrite, h, hmap]
    · simp [fsWrite, h, hmap, hpq]
  · simp only [fsWrite, h, if_false]
    by_cases hpq : p = q
    · subst hpq
      simp [fsExists, List.any_append, h]
    · simp [fsExists, List.any_append, hpq, Ne.symm hpq]

theorem gerarESalvar_falha (env : Env) (nome destino : String) (st : St) (e : String)
    (h : falhaMsg env nome destino = some e) :
    gerarESalvar env nome destino st =
      (false, { st with
          calls := st.calls ++ [nome],
          errLog := st.errLog ++ [mkLogLine (env.timestamp st.errLog.length) nome e] }) := by
  unfold falhaMsg at h
  cases hp : env.predict nome with
  | error e0 =>
    rw [hp] at h
    simp only [Option.some.injEq] at h
    subst h
    simp [gerarESalvar, hp, logErro]
  | ok resultado =>
    rw [hp] at h
    cases hr : primeiroElemento resultado with
    | error e0 =>
      simp only [hr, Option.some.injEq] at h
      subst h
      simp [gerarESalvar, hp, hr, logErro]
    | ok tags =>
      simp only [hr] at h
      simp [gerarESalvar, hp, hr, h, logErro]

theorem gerarESalvar_sucesso (env : Env) (nome destino : String) (st : St)
    (t : String) (resto : List String)
    (hp : env.predict nome = Except.ok (t :: resto))
    (hw : env.writeErr destino = none) :
    gerarESalvar env nome destino st =
      (true, { st with
          calls := st.calls ++ [nome],
          files := fsWrite st.files destino t }) := by
  unfold gerarESalvar
  rw [hp]
  simp [primeiroElemento, hw]

theorem falhaMsg_none (env : Env) (nome destino : String)
    (h : falhaMsg env nome destino = none) :
    ∃ t resto, env.predict nome = Except.ok (t :: resto) ∧ env.writeErr destino = none := by
  unfold falhaMsg at h
  cases hp : env.predict nome with
  | error e0 => rw [hp] at h; exact absurd h (by simp)
  | ok resultado =>
    rw [hp] at h
    cases resultado with
    | nil => exact absurd h (by simp [primeiroElemento])
    | cons t resto =>
      exact ⟨t, resto, rfl, by simpa [primeiroElemento] using h⟩

theorem processarItem_pular (env : Env) (st : St) (nome : String)
    (h : fsExists st.files (sidecarName nome) = true) :
    processarItem env st nome = { st with ignorado := st.ignorado + 1 } := by
  simp [processarItem, h]

theorem processarItem_falha (env : Env) (st : St) (nome e : String)
    (h0 : fsExists st.files (sidecarName nome) = false)
    (h : falhaMsg env nome (sidecarName nome) = some e) :
    processarItem env st nome =
      { st with
          falha := st.falha + 1,
          calls := st.calls ++ [nome],
          errLog := st.errLog ++ [mkLogLine (env.timestamp st.errLog.length) nome e] } := by
  simp [processarItem, h0, gerarESalvar_falha env nome (sidecarName nome) st e h]

theorem processarItem_sucesso (env : Env) (st : St) (nome t : String) (resto : List String)
    (h0 : fsExists st.files (sidecarName nome) = false)
    (hp : env.predict nome = Except.ok (t :: resto))
    (hw : env.writeErr (sidecarName nome) = none) :
    processarItem env st nome =
      { st with
          sucesso := st.sucesso + 1,
          calls := st.calls ++ [nome],
          files := fsWrite st.files (sidecarName nome) t } := by
  simp [processarItem, h0, gerarESalvar_sucesso env nome (sidecarName nome) st t resto hp hw]

theorem processarItem_cases (env : Env) (st : St) (nome : String) :
    (fsExists st.files (sidecarName nome) = true ∧
      processarItem env st nome = { st with ignorado := st.ignorado + 1 })
    ∨ (∃ e, fsExists st.files (sidecarName nome) = false ∧
        falhaMsg env nome (sidecarName nome) = some e ∧
        processarItem env st nome =
          { st with
              falha := st.falha + 1,
              calls := st.calls ++ [nome],
              errLog := st.errLog ++ [mkLogLine (env.timestamp st.errLog.length) nome e] })
    ∨ (∃ t, fsExists st.files (sidecarName nome) = false ∧
        processarItem env st nome =
          { st with
              sucesso := st.sucesso + 1,
              calls := st.calls ++ [nome],
              files := fsWrite st.files (sidecarName nome) t }) := by
  by_cases h0 : fsExists st.files (sidecarName nome)
  · exact Or.inl ⟨h0, processarItem_pular env st nome h0⟩
  · cases hm : falhaMsg env nome (sidecarName nome) with
    | some e =>
      exact Or.inr (Or.inl ⟨e, by simpa using h0, rfl,
        processarItem_falha env st nome e (by simpa using h0) hm⟩)
    | none =>
      obtain ⟨t, resto, hp, hw⟩ := falhaMsg_none env nome (sidecarName nome) hm
      exact Or.inr (Or.inr ⟨t, by simpa using h0,
        processarItem_sucesso env st nome t resto (by simpa using h0) hp hw⟩)

theorem processarItem_files_mono (env : Env) (st : St) (nome p : String)
    (h : fsExists st.files p = true) :
    fsExists (processarItem env st nome).files p = true := by
  rcases processarItem_cases env st nome with ⟨_, heq⟩ | ⟨e, _, _, heq⟩ | ⟨t, _, heq⟩ <;>
    rw [heq] <;> simp [fsExists_fsWrite, h]

theorem processarItem_errLog_mono (env : Env) (st : St) (nome l : String)
    (h : l ∈ st.errLog) :
    l ∈ (processarItem env st nome).errLog := by
  rcases processarItem_cases env st nome with ⟨_, heq⟩ | ⟨e, _, _, heq⟩ | ⟨t, _, heq⟩ <;>
    rw [heq] <;> simp [h]

theorem processarItem_ignorado_mono (env : Env) (st : St) (nome : String) :
    st.ignorado ≤ (processarItem env st nome).ignorado := by
  rcases processarItem_cases env st nome with ⟨_, heq⟩ | ⟨e, _, _, heq⟩ | ⟨t, _, heq⟩ <;>
    simp [heq]

theorem processarItem_calls_sub (env : Env) (st : St) (nome c : String)
    (h : c ∈ (processarItem env st nome).calls) :
    c ∈ st.calls ∨ c = nome := by
  rcases processarItem_cases env st nome with ⟨_, heq⟩ | ⟨e, _, _, heq⟩ | ⟨t, _, heq⟩ <;>
    rw [heq] at h
  · exact Or.inl h
  · rcases List.mem_append.mp h with h1 | h1
    · exact Or.inl h1
    · exact Or.inr (by simpa using h1)
  · rcases List.mem_append.mp h with h1 | h1
    · exact Or.inl h1
    · exact Or.inr (by simpa using h1)

theorem processarLote_files_mono (env : Env) (imgs : List String) (st : St) (p : String)
    (h : fsExists st.files p = true) :
    fsExists (processarLote env imgs st).files p = true := by
  induction imgs generalizing st with
  | nil => exact h
  | cons nome resto ih =>
    exact ih (processarItem env st nome) (processarItem_files_mono env st nome p h)

theorem processarLote_errLog_mono (env : Env) (imgs : List String) (st : St) (l : String)
    (h : l ∈ st.errLog) :
    l ∈ (processarLote env imgs st).errLog := by
  induction imgs generalizing st with
  | nil => exact h
  | cons nome resto ih =>
    exact ih (processarItem env st nome) (processarItem_errLog_mono env st nome l h)

theorem processarLote_ignorado_mono (env : Env) (imgs : List String) (st : St) :
    st.ignorado ≤ (processarLote env imgs st).ignorado := by
  induction imgs generalizing st with
  | nil => exact le_rfl
  | cons nome resto ih =>
    exact le_trans (processarItem_ignorado_mono env st nome) (ih (processarItem env st nome))

theorem processarLote_calls_sub (env : Env) (imgs : List String) (st : St) (c : String)
    (h : c ∈ (processarLote env imgs st).calls) :
    c ∈ st.calls ∨ c ∈ imgs := by
  induction imgs generalizing st with
  | nil => exact Or.inl h
  | cons nome resto ih =>
    rcases ih (processarItem env st nome) h with h1 | h1
    · rcases processarItem_calls_sub env st nome c h1 with h2 | h2
      · exact Or.inl h2
      · exact Or.inr (by simp [h2])
    · exact Or.inr (List.mem_cons_of_mem nome h1)

theorem verificarPastas_ok (p : Pastas) (h : p.entradaExists = true) :
    verificarPastas p = (true, { entradaExists := true, saidaExists := true }) := by
  cases p with
  | mk ent sai =>
    simp only [Pastas.entradaExists] at h
    subst h
    cases sai <;> simp [verificarPastas]

/-- C5: `_listar_imagens` returns exactly the regular files of the input
directory whose lower-cased extension is accepted, sorted lexicographically
regardless of listing order; `photo.TXT` and `photo.tiff` are never
selected, `photo.JPG` is. -/
theorem c5_listar_imagens :
    (∀ entries : List Entrada, List.Sorted (· ≤ ·) (listarImagens entries))
    ∧ (∀ (entries : List Entrada) (nome : String),
        nome ∈ listarImagens entries ↔
          ∃ a, a ∈ entries ∧ a.name = nome ∧ a.isFile = true ∧
            EXTENSOES.contains (strLower (pathSuffix nome)) = true)
    ∧ listarImagens
        [{ name := "photo.TXT", isFile := true }, { name := "photo.tiff", isFile := true },
         { name := "photo.JPG", isFile := true }] = ["photo.JPG"] := by
  refine ⟨?_, ?_, ?_⟩
  · intro entries
    exact (List.sorted_insertionSort nomeLe _).imp fun h => String.le_iff_toList_le.mpr h
  · intro entries nome
    unfold listarImagens
    rw [List.Perm.mem_iff (List.perm_insertionSort _ _)]
    simp only [List.mem_map, List.mem_filter, Bool.and_eq_true]
    constructor
    · rintro ⟨a, ⟨ha, hf, hext⟩, rfl⟩
      exact ⟨a, ha, rfl, hf, hext⟩
    · rintro ⟨a, ha, rfl, hf, hext⟩
      exact ⟨a, ⟨ha, hf, hext⟩, rfl⟩
  · decide

/-- C6: the final report carries the three counters and the elapsed time,
prints the mean per-image time exactly when at least one success occurred,
and computes it as elapsed divided by `max(total - skipped, 1)`; with
total 5, skipped 2, elapsed 9 the mean is 3. -/
theorem c6_relatorio_final :
    (∀ (st : St) (tempo : ℚ) (total : Nat),
      (exibirRelatorioFinal st tempo total).sucesso = st.sucesso
      ∧ (exibirRelatorioFinal st tempo total).ignorado = st.ignorado
      ∧ (exibirRelatorioFinal st tempo total).falha = st.falha
      ∧ (exibirRelatorioFinal st tempo total).tempo = tempo
      ∧ ((exibirRelatorioFinal st tempo total).media.isSome ↔ 0 < st.sucesso)
      ∧ (0 < st.sucesso →
          (exibirRelatorioFinal st tempo total).media =
            some (tempo / ((max ((total : ℤ) - (st.ignorado : ℤ)) 1 : ℤ) : ℚ))))
    ∧ (exibirRelatorioFinal
        { sucesso := 3, falha := 0, ignorado := 2, files := [], errLog := [], calls := [] }
        9 5).media = some 3 := by
  constructor
  · intro st tempo total
    refine ⟨rfl, rfl, rfl, rfl, ?_, ?_⟩
    · by_cases h : 0 < st.sucesso <;> simp [exibirRelatorioFinal, h]
    · intro h
      simp [exibirRelatorioFinal, h]
  · norm_num [exibirRelatorioFinal]

/-- C6 witness: the general report theorem applied at total 5, skipped 2,
succeeded 3, elapsed 9. -/
theorem c6_relatorio_final_witness :
    (exibirRelatorioFinal
      { sucesso := 3, falha := 0, ignorado := 2, files := [], errLog := [], calls := [] }
      9 5).media = some ((9 : ℚ) / ((max ((5 : ℤ) - (2 : ℤ)) 1 : ℤ) : ℚ)) :=
  (c6_relatorio_final.1
    { sucesso := 3, falha := 0, ignorado := 2, files := [], errLog := [], calls := [] }
    9 5).2.2.2.2.2 (by decide)

/-- C8: `_verificar_pastas` returns `false` (no exception: it is a total
function) when the input directory is missing and the run comes back with
exit code 0; when the input directory exists it ensures the output
directory exists and returns `true`. -/
theorem c8_verificar_pastas :
    (∀ p : Pastas, p.entradaExists = false → verificarPastas p = (false, p))
    ∧ (∀ p : Pastas, p.entradaExists = true →
        (verificarPastas p).1 = true ∧ (verificarPastas p).2.saidaExists = true)
    ∧ (∀ env : Env, env.gradioAvailable = true → env.entradaExists = false →
        (programa env).1 = 0
        ∧ ∀ r, (programa env).2 = some r →
            r.pastasOk = false ∧ r.loteProcessado = false ∧ r.st = estadoInicial env) := by
  refine ⟨?_, ?_, ?_⟩
  · intro p h
    simp [verificarPastas, h]
  · intro p h
    rw [verificarPastas_ok p h]
    exact ⟨rfl, rfl⟩
  · intro env hg he
    constructor
    · simp [programa, hg]
    · intro r hr
      simp only [programa, hg, if_true, Option.some.injEq] at hr
      subst hr
      have hv : verificarPastas { entradaExists := env.entradaExists, saidaExists := env.saidaExists }
          = (false, { entradaExists := env.entradaExists, saidaExists := env.saidaExists }) := by
        simp [verificarPastas, he]
      simp only [iniciar, hv]
      simp

/-- C8 witness: the theorem applied to a concrete missing input directory
and to a concrete present one. -/
theorem c8_verificar_pastas_witness :
    verificarPastas { entradaExists := false, saidaExists := false }
      = (false, { entradaExists := false, saidaExists := false })
    ∧ ((verificarPastas { entradaExists := true, saidaExists := false }).1 = true
        ∧ (verificarPastas { entradaExists := true, saidaExists := false }).2.saidaExists = true) :=
  ⟨c8_verificar_pastas.1 { entradaExists := false, saidaExists := false } rfl,
   c8_verificar_pastas.2.1 { entradaExists := true, saidaExists := false } rfl⟩

/-- C9: with an existing input directory but no qualifying image, the run
reports "no images found", never attempts the connection, processes
nothing, and exits 0 — a normal condition. -/
theorem c9_sem_imagens :
    ∀ env : Env, env.entradaExists = true → listarImagens env.entries = [] →
      (iniciar env).nenhumaImagem = true
      ∧ (iniciar env).conexaoTentada = false
      ∧ (iniciar env).loteProcessado = false
      ∧ (iniciar env).st = estadoInicial env
      ∧ (iniciar env).st.calls = []
      ∧ (env.gradioAvailable = true → (programa env).1 = 0) := by
  intro env he hl
  have hred : iniciar env =
      { pastasOk := true, nenhumaImagem := true, conexaoTentada := false,
        falhaConexao := none, loteProcessado := false,
        pastas := { entradaExists := true, saidaExists := true },
        st := estadoInicial env, relatorio := none } := by
    have hv := verificarPastas_ok { entradaExists := env.entradaExists, saidaExists := env.saidaExists }
      (by simpa using he)
    simp only [iniciar, hv, hl]
    simp
  refine ⟨by rw [hred], by rw [hred], by rw [hred], by rw [hred], by rw [hred]; rfl, ?_⟩
  intro hg
  simp [programa, hg]

/-- C9 witness: the theorem applied to an environment whose input directory
holds only a non-image file. -/
theorem c9_sem_imagens_witness :
    (iniciar
      { gradioAvailable := true, entradaExists := true, saidaExists := true,
        entries := [{ name := "notas.txt", isFile := true }],
        connect := Except.ok (), predict := fun _ => Except.ok [],
        writeErr := fun _ => none, timestamp := fun _ => "00:00:00",
        initFiles := [], initErrLog := [], tempoTotal := 0 }).conexaoTentada = false :=
  (c9_sem_imagens
    { gradioAvailable := true, entradaExists := true, saidaExists := true,
      entries := [{ name := "notas.txt", isFile := true }],
      connect := Except.ok (), predict := fun _ => Except.ok [],
      writeErr := fun _ => none, timestamp := fun _ => "00:00:00",
      initFiles := [], initErrLog := [], tempoTotal := 0 } rfl (by decide)).2.1

theorem processarLote_todos_existem (env : Env) (imgs : List String) (st : St)
    (h : ∀ nome ∈ imgs, fsExists st.files (sidecarName nome) = true) :
    processarLote env imgs st = { st with ignorado := st.ignorado + imgs.length } := by
  induction imgs generalizing st with
  | nil => simp [processarLote]
  | cons nome resto ih =>
    have hnome : fsExists st.files (sidecarName nome) = true := h nome (by simp)
    have hresto : ∀ n ∈ resto, fsExists ({ st with ignorado := st.ignorado + 1 } : St).files
        (sidecarName n) = true := by
      intro n hn
      exact h n (by simp [hn])
    calc processarLote env (nome :: resto) st
        = processarLote env resto (processarItem env st nome) := rfl
      _ = processarLote env resto { st with ignorado := st.ignorado + 1 } := by
          rw [processarItem_pular env st nome hnome]
      _ = { st with ignorado := st.ignorado + 1 + resto.length } := ih _ hresto
      _ = { st with ignorado := st.ignorado + (resto.length + 1) } := by
          have : st.ignorado + 1 + resto.length = st.ignorado + (resto.length + 1) := by omega
          rw [this]
      _ = { st with ignorado := st.ignorado + (nome :: resto).length } := by
          simp

/-- C1: an image whose sidecar already exists is skipped: no remote call,
files untouched, skipped counter incremented; a whole batch over images
whose sidecars all exist makes zero remote calls, changes no file, and
counts every image as skipped, which is what the report then shows. -/
theorem c1_idempotencia :
    (∀ (env : Env) (st : St) (nome : String),
      fsExists st.files (sidecarName nome) = true →
        processarItem env st nome = { st with ignorado := st.ignorado + 1 })
    ∧ (∀ (env : Env) (imgs : List String) (st : St),
        (∀ nome ∈ imgs, fsExists st.files (sidecarName nome) = true) →
          processarLote env imgs st = { st with ignorado := st.ignorado + imgs.length })
    ∧ (∀ env : Env, env.entradaExists = true → env.connect = Except.ok () →
        (∀ nome ∈ listarImagens env.entries, fsExists env.initFiles (sidecarName nome) = true) →
          (iniciar env).st.calls = []
          ∧ (iniciar env).st.files = env.initFiles
          ∧ (iniciar env).st.errLog = env.initErrLog
          ∧ (iniciar env).st.sucesso = 0
          ∧ (iniciar env).st.falha = 0
          ∧ (iniciar env).st.ignorado = (listarImagens env.entries).length
          ∧ ∀ rel, (iniciar env).relatorio = some rel →
              rel.ignorado = (listarImagens env.entries).length) := by
  refine ⟨fun env st nome h => processarItem_pular env st nome h,
    fun env imgs st h => processarLote_todos_existem env imgs st h, ?_⟩
  intro env he hc hall
  have hv := verificarPastas_ok { entradaExists := env.entradaExists, saidaExists := env.saidaExists }
    (by simpa using he)
  by_cases himg : listarImagens env.entries = []
  · have hred : iniciar env =
        { pastasOk := true, nenhumaImagem := true, conexaoTentada := false,
          falhaConexao := none, loteProcessado := false,
          pastas := { entradaExists := true, saidaExists := true },
          st := estadoInicial env, relatorio := none } := by
      simp only [iniciar, hv, himg]
      simp
    rw [hred]
    simp [estadoInicial, himg]
  · have hne : (listarImagens env.entries).isEmpty = false := by
      simpa [List.isEmpty_iff] using himg
    have hlote : processarLote env (listarImagens env.entries) (estadoInicial env)
        = { estadoInicial env with ignorado := 0 + (listarImagens env.entries).length } :=
      processarLote_todos_existem env _ _ (by
        intro nome hn
        simpa [estadoInicial] using hall nome hn)
    have hred : iniciar env =
        { pastasOk := true, nenhumaImagem := false, conexaoTentada := true,
          falhaConexao := none, loteProcessado := true,
          pastas := { entradaExists := true, saidaExists := true },
          st := { estadoInicial env with ignorado := 0 + (listarImagens env.entries).length },
          relatorio := some (exibirRelatorioFinal
            { estadoInicial env with ignorado := 0 + (listarImagens env.entries).length }
            env.tempoTotal (listarImagens env.entries).length) } := by
      simp only [iniciar, hv, hne, hc, Bool.false_eq_true, if_false, hlote]
    rw [hred]
    refine ⟨rfl, rfl, rfl, rfl, rfl, by simp [estadoInicial], ?_⟩
    intro rel hrel
    simp only [Option.some.injEq] at hrel
    subst hrel
    simp [exibirRelatorioFinal, estadoInicial]

/-- C1 witness: a second run over `a.jpg` whose sidecar `a.txt` already
exists skips it, calls nothing, and reports one skip. -/
theorem c1_idempotencia_witness :
    (iniciar
      { gradioAvailable := true, entradaExists := true, saidaExists := true,
        entries := [{ name := "a.jpg", isFile := true }],
        connect := Except.ok (), predict := fun _ => Except.error "nunca chamado",
        writeErr := fun _ => none, timestamp := fun _ => "00:00:00",
        initFiles := [("a.txt", "tags antigas")], initErrLog := [],
        tempoTotal := 0 }).st.calls = [] :=
  (c1_idempotencia.2.2
    { gradioAvailable := true, entradaExists := true, saidaExists := true,
      entries := [{ name := "a.jpg", isFile := true }],
      connect := Except.ok (), predict := fun _ => Except.error "nunca chamado",
      writeErr := fun _ => none, timestamp := fun _ => "00:00:00",
      initFiles := [("a.txt", "tags antigas")], initErrLog := [],
      tempoTotal := 0 } rfl rfl (by decide)).1

/-- C3: a failing image (remote call or local write raising) is contained in
its own step: the failed counter goes up by one, exactly one log line with
timestamp, file name and message is appended, nothing else changes, and the
loop goes on with the remaining images. -/
theorem c3_falha_contida :
    ∀ (env : Env) (st : St) (nome : String) (resto : List String) (e : String),
      fsExists st.files (sidecarName nome) = false →
      falhaMsg env nome (sidecarName nome) = some e →
      processarLote env (nome :: resto) st =
        processarLote env resto
          { st with
              falha := st.falha + 1,
              calls := st.calls ++ [nome],
              errLog := st.errLog ++ [mkLogLine (env.timestamp st.errLog.length) nome e] } := by
  intro env st nome resto e h0 h
  show processarLote env resto (processarItem env st nome) = _
  rw [processarItem_falha env st nome e h0 h]

/-- C3 witness: with `a.jpg` failing remotely and `b.jpg` succeeding, the
failure is logged once and the batch still processes `b.jpg`. -/
theorem c3_falha_contida_witness :
    fsExists ([] : Arquivos) (sidecarName "a.jpg") = false
    ∧ processarLote
        { gradioAvailable := true, entradaExists := true, saidaExists := true,
          entries := [],
          connect := Except.ok (),
          predict := fun n => if n = "a.jpg" then Except.error "timeout" else Except.ok ["tags b"],
          writeErr := fun _ => none, timestamp := fun _ => "10:00:00",
          initFiles := [], initErrLog := [], tempoTotal := 0 }
        ["a.jpg", "b.jpg"]
        { sucesso := 0, falha := 0, ignorado := 0, files := [], errLog := [], calls := [] } =
      processarLote
        { gradioAvailable := true, entradaExists := true, saidaExists := true,
          entries := [],
          connect := Except.ok (),
          predict := fun n => if n = "a.jpg" then Except.error "timeout" else Except.ok ["tags b"],
          writeErr := fun _ => none, timestamp := fun _ => "10:00:00",
          initFiles := [], initErrLog := [], tempoTotal := 0 }
        ["b.jpg"]
        { sucesso := 0, falha := 1, ignorado := 0, files := [],
          errLog := [mkLogLine "10:00:00" "a.jpg" "timeout"], calls := ["a.jpg"] } := by
  refine ⟨by decide, ?_⟩
  exact c3_falha_contida
    { gradioAvailable := true, entradaExists := true, saidaExists := true,
      entries := [],
      connect := Except.ok (),
      predict := fun n => if n = "a.jpg" then Except.error "timeout" else Except.ok ["tags b"],
      writeErr := fun _ => none, timestamp := fun _ => "10:00:00",
      initFiles := [], initErrLog := [], tempoTotal := 0 }
    { sucesso := 0, falha := 0, ignorado := 0, files := [], errLog := [], calls := [] }
    "a.jpg" ["b.jpg"] "timeout" (by decide) (by decide)

/-- C4: after the batch loop finishes, every image of the batch either has a
sidecar file in the output directory, or is named by an error-log entry, or
its sidecar already existed before the loop began. -/
theorem c4_invariante :
    ∀ (env : Env) (imgs : List String) (st : St) (nome : String),
      nome ∈ imgs →
        fsExists (processarLote env imgs st).files (sidecarName nome) = true
        ∨ (∃ ts msg, mkLogLine ts nome msg ∈ (processarLote env imgs st).errLog)
        ∨ fsExists st.files (sidecarName nome) = true := by
  intro env imgs
  induction imgs with
  | nil =>
    intro st nome h
    simp at h
  | cons hd tl ih =>
    intro st nome h
    have hlote : processarLote env (hd :: tl) st
        = processarLote env tl (processarItem env st hd) := rfl
    rcases List.mem_cons.mp h with rfl | htl
    · rcases processarItem_cases env st nome with ⟨hex, _⟩ | ⟨e, _, _, heq⟩ | ⟨t, _, heq⟩
      · exact Or.inr (Or.inr hex)
      · refine Or.inr (Or.inl ⟨env.timestamp st.errLog.length, e, ?_⟩)
        rw [hlote]
        refine processarLote_errLog_mono env tl _ _ ?_
        rw [heq]
        simp
      · refine Or.inl ?_
        rw [hlote]
        refine processarLote_files_mono env tl _ _ ?_
        rw [heq]
        simp [fsExists_fsWrite]
    · rcases ih (processarItem env st hd) nome htl with h1 | h1 | h1
      · exact Or.inl (by rw [hlote]; exact h1)
      · exact Or.inr (Or.inl (by rw [hlote]; exact h1))
      · refine Or.inl ?_
        rw [hlote]
        exact processarLote_files_mono env tl _ _ h1

/-- C4 witness: in a batch over `a.jpg` (fails remotely) and `b.jpg`
(succeeds), each image ends covered by the invariant. -/
theorem c4_invariante_witness :
    ("a.jpg" ∈ ["a.jpg", "b.jpg"]
      ∧ ("b.jpg" : String) ∈ ["a.jpg", "b.jpg"])
    ∧ (fsExists (processarLote
        { gradioAvailable := true, entradaExists := true, saidaExists := true,
          entries := [],
          connect := Except.ok (),
          predict := fun n => if n = "a.jpg" then Except.error "timeout" else Except.ok ["tags b"],
          writeErr := fun _ => none, timestamp := fun _ => "10:00:00",
          initFiles := [], initErrLog := [], tempoTotal := 0 }
        ["a.jpg", "b.jpg"]
        { sucesso := 0, falha := 0, ignorado := 0, files := [], errLog := [], calls := [] }).files
        (sidecarName "b.jpg") = true
      ∨ (∃ ts msg, mkLogLine ts "b.jpg" msg ∈ (processarLote
        { gradioAvailable := true, entradaExists := true, saidaExists := true,
          entries := [],
          connect := Except.ok (),
          predict := fun n => if n = "a.jpg" then Except.error "timeout" else Except.ok ["tags b"],
          writeErr := fun _ => none, timestamp := fun _ => "10:00:00",
          initFiles := [], initErrLog := [], tempoTotal := 0 }
        ["a.jpg", "b.jpg"]
        { sucesso := 0, falha := 0, ignorado := 0, files := [], errLog := [], calls := [] }).errLog)
      ∨ fsExists ([] : Arquivos) (sidecarName "b.jpg") = true) :=
  ⟨⟨by decide, by decide⟩,
   c4_invariante
    { gradioAvailable := true, entradaExists := true, saidaExists := true,
      entries := [],
      connect := Except.ok (),
      predict := fun n => if n = "a.jpg" then Except.error "timeout" else Except.ok ["tags b"],
      writeErr := fun _ => none, timestamp := fun _ => "10:00:00",
      initFiles := [], initErrLog := [], tempoTotal := 0 }
    ["a.jpg", "b.jpg"]
    { sucesso := 0, falha := 0, ignorado := 0, files := [], errLog := [], calls := [] }
    "b.jpg" (by decide)⟩

theorem fsLookup_fsWrite_new (fs : Arquivos) (p t : String)
    (h : fsExists fs p = false) :
    fsLookup (fsWrite fs p t) p = some t := by
  have hall : ∀ x ∈ fs, ¬ x.1 = p := by
    intro x hx hxp
    have hex : fsExists fs p = true := by
      unfold fsExists
      rw [List.any_eq_true]
      exact ⟨x, hx, by simp [hxp]⟩
    rw [h] at hex
    exact Bool.noConfusion hex
  have hfind : fs.find? (fun e => e.1 = p) = none := by
    rw [List.find?_eq_none]
    intro x hx
    simpa using hall x hx
  simp [fsWrite, h, fsLookup, List.find?_append, hfind]

/-- A concrete environment whose input directory holds one image `cat.png`
for which the service answers `1girl, solo, smile`. -/
def envGato : Env :=
  { gradioAvailable := true, entradaExists := true, saidaExists := true,
    entries := [{ name := "cat.png", isFile := true }],
    connect := Except.ok (),
    predict := fun _ => Except.ok ["1girl, solo, smile"],
    writeErr := fun _ => none, timestamp := fun _ => "12:00:00",
    initFiles := [], initErrLog := [], tempoTotal := 2 }

/-- C7: a successful image writes the first element of the service's result
verbatim to `<stem>.txt` and bumps the succeeded counter; the only file the
step can create is that sidecar, never one with the image's own extension —
concretely, `cat.png` yields `cat.txt` with the exact tag string and no
`cat.png` output. -/
theorem c7_sucesso_escreve :
    (∀ (env : Env) (st : St) (nome t : String) (resto : List String),
      fsExists st.files (sidecarName nome) = false →
      env.predict nome = Except.ok (t :: resto) →
      env.writeErr (sidecarName nome) = none →
        processarItem env st nome =
          { st with
              sucesso := st.sucesso + 1,
              calls := st.calls ++ [nome],
              files := fsWrite st.files (sidecarName nome) t }
        ∧ fsLookup (processarItem env st nome).files (sidecarName nome) = some t
        ∧ ∀ p, fsExists (processarItem env st nome).files p = true →
            fsExists st.files p = true ∨ p = sidecarName nome)
    ∧ sidecarName "cat.png" = "cat.txt"
    ∧ (iniciar envGato).st.files = [("cat.txt", "1girl, solo, smile")]
    ∧ fsExists (iniciar envGato).st.files "cat.png" = false
    ∧ (iniciar envGato).st.sucesso = 1 := by
  refine ⟨?_, by decide, by decide, by decide, by decide⟩
  intro env st nome t resto h0 hp hw
  have heq := processarItem_sucesso env st nome t resto h0 hp hw
  refine ⟨heq, ?_, ?_⟩
  · rw [heq]
    exact fsLookup_fsWrite_new st.files (sidecarName nome) t h0
  · intro p hpex
    rw [heq] at hpex
    simp only [fsExists_fsWrite, Bool.or_eq_true, beq_iff_eq] at hpex
    exact hpex

/-- C7 witness: the per-image success theorem applied to `cat.png` with the
response `1girl, solo, smile` on an empty output directory. -/
theorem c7_sucesso_escreve_witness :
    fsLookup (processarItem envGato
      { sucesso := 0, falha := 0, ignorado := 0, files := [], errLog := [], calls := [] }
      "cat.png").files (sidecarName "cat.png") = some "1girl, solo, smile" :=
  (c7_sucesso_escreve.1 envGato
    { sucesso := 0, falha := 0, ignorado := 0, files := [], errLog := [], calls := [] }
    "cat.png" "1girl, solo, smile" [] (by decide) rfl rfl).2.1

/-- A concrete environment where the connection to the remote service
fails. -/
def envConexaoFalha : Env :=
  { gradioAvailable := true, entradaExists := true, saidaExists := true,
    entries := [{ name := "a.jpg", isFile := true }],
    connect := Except.error "connection refused",
    predict := fun _ => Except.ok [], writeErr := fun _ => none,
    timestamp := fun _ => "00:00:00", initFiles := [], initErrLog := [],
    tempoTotal := 0 }

/-- C2 counterexample: the connect step fails, the failure is reported, yet
the process exit status is 0 — not the nonzero exit the claim states
(`_conectar_api` swallows the exception and `iniciar` just returns). -/
theorem c2_saida_zero_contraexemplo :
    envConexaoFalha.connect = Except.error "connection refused"
    ∧ (iniciar envConexaoFalha).conexaoTentada = true
    ∧ (iniciar envConexaoFalha).falhaConexao = some "connection refused"
    ∧ (iniciar envConexaoFalha).st.calls = []
    ∧ (programa envConexaoFalha).1 = 0 := by
  refine ⟨rfl, by decide, by decide, by decide, rfl⟩

/-- C2 amended: when the connect step fails, no per-image processing occurs
(no remote call, no sidecar write, no report) and the run returns cleanly
with exit status 0 after recording the human-readable failure message — not
with a nonzero exit status. -/
theorem c2_conexao_falha :
    ∀ (env : Env) (e : String),
      env.gradioAvailable = true →
      env.connect = Except.error e →
        (programa env).1 = 0
        ∧ ∀ r, (programa env).2 = some r →
            r.loteProcessado = false
            ∧ r.st = estadoInicial env
            ∧ r.st.calls = []
            ∧ r.relatorio = none
            ∧ (r.conexaoTentada = true → r.falhaConexao = some e) := by
  intro env e hg hc
  constructor
  · simp [programa, hg]
  · intro r hr
    simp only [programa, hg, if_true, Option.some.injEq] at hr
    subst hr
    rcases hb : verificarPastas { entradaExists := env.entradaExists, saidaExists := env.saidaExists }
      with ⟨ok, p1⟩
    cases ok
    · have hred : iniciar env =
          { pastasOk := false, nenhumaImagem := false, conexaoTentada := false,
            falhaConexao := none, loteProcessado := false, pastas := p1,
            st := estadoInicial env, relatorio := none } := by
        simp only [iniciar, hb]
      rw [hred]
      exact ⟨rfl, rfl, rfl, rfl, fun h => Bool.noConfusion h⟩
    · by_cases himg : (listarImagens env.entries).isEmpty
      · have hred : iniciar env =
            { pastasOk := true, nenhumaImagem := true, conexaoTentada := false,
              falhaConexao := none, loteProcessado := false, pastas := p1,
              st := estadoInicial env, relatorio := none } := by
          simp only [iniciar, hb, himg, if_true]
        rw [hred]
        exact ⟨rfl, rfl, rfl, rfl, fun h => Bool.noConfusion h⟩
      · have hred : iniciar env =
            { pastasOk := true, nenhumaImagem := false, conexaoTentada := true,
              falhaConexao := some e, loteProcessado := false, pastas := p1,
              st := estadoInicial env, relatorio := none } := by
          simp only [iniciar, hb, himg, if_false, hc, Bool.false_eq_true]
        rw [hred]
        exact ⟨rfl, rfl, rfl, rfl, fun _ => rfl⟩

/-- C2 witness: the amended theorem applied to the concrete failing
connection environment. -/
theorem c2_conexao_falha_witness :
    (programa envConexaoFalha).1 = 0 :=
  (c2_conexao_falha envConexaoFalha "connection refused" rfl rfl).1

/-- C10: images sharing a stem share the one sidecar `<stem>.txt`; once that
sidecar exists when a same-stem image's turn comes (pre-existing or created
for the lexicographically earlier image), that image is counted as skipped
and is never sent to the remote service. -/
theorem c10_mesmo_stem :
    (∀ a b : String, pathStem a = pathStem b → sidecarName a = sidecarName b)
    ∧ sidecarName "a.jpg" = sidecarName "a.png"
    ∧ (∀ (env : Env) (st : St) (imgs : List String) (b : String),
        b ∈ imgs → imgs.Nodup → fsExists st.files (sidecarName b) = true →
        b ∉ st.calls →
          b ∉ (processarLote env imgs st).calls
          ∧ st.ignorado + 1 ≤ (processarLote env imgs st).ignorado) := by
  refine ⟨fun a b h => by simp [sidecarName, h], by decide, ?_⟩
  intro env st imgs b
  induction imgs generalizing st with
  | nil =>
    intro h
    exact absurd h (List.not_mem_nil b)
  | cons hd tl ih =>
    intro h hnd hex hnc
    have hlote : processarLote env (hd :: tl) st
        = processarLote env tl (processarItem env st hd) := rfl
    rcases List.mem_cons.mp h with rfl | htl
    · have hstep := processarItem_pular env st b hex
      constructor
      · intro hmem
        rw [hlote, hstep] at hmem
        rcases processarLote_calls_sub env tl _ b hmem with h1 | h1
        · exact hnc h1
        · exact (List.nodup_cons.mp hnd).1 h1
      · rw [hlote, hstep]
        have hmono := processarLote_ignorado_mono env tl { st with ignorado := st.ignorado + 1 }
        simpa using hmono
    · have hd_ne : hd ≠ b := fun hk => (List.nodup_cons.mp hnd).1 (hk ▸ htl)
      have hex1 : fsExists (processarItem env st hd).files (sidecarName b) = true :=
        processarItem_files_mono env st hd _ hex
      have hnc1 : b ∉ (processarItem env st hd).calls := by
        intro hmem
        rcases processarItem_calls_sub env st hd b hmem with h1 | h1
        · exact hnc h1
        · exact hd_ne h1.symm
      have hih := ih (processarItem env st hd) htl (List.nodup_cons.mp hnd).2 hex1 hnc1
      refine ⟨by rw [hlote]; exact hih.1, ?_⟩
      rw [hlote]
      have hmono := processarItem_ignorado_mono env st hd
      have h2 := hih.2
      omega

/-- C10 witness: with `a.txt` already present, the later same-stem image
`a.png` is skipped and never called. -/
theorem c10_mesmo_stem_witness :
    "a.png" ∉ (processarLote
      { gradioAvailable := true, entradaExists := true, saidaExists := true,
        entries := [],
        connect := Except.ok (), predict := fun _ => Except.ok ["tags"],
        writeErr := fun _ => none, timestamp := fun _ => "00:00:00",
        initFiles := [], initErrLog := [], tempoTotal := 0 }
      ["a.png"]
      { sucesso := 0, falha := 0, ignorado := 0, files := [("a.txt", "tags de a.jpg")],
        errLog := [], calls := [] }).calls :=
  (c10_mesmo_stem.2.2
    { gradioAvailable := true, entradaExists := true, saidaExists := true,
      entries := [],
      connect := Except.ok (), predict := fun _ => Except.ok ["tags"],
      writeErr := fun _ => none, timestamp := fun _ => "00:00:00",
      initFiles := [], initErrLog := [], tempoTotal := 0 }
    { sucesso := 0, falha := 0, ignorado := 0, files := [("a.txt", "tags de a.jpg")],
      errLog := [], calls := [] }
    ["a.png"] "a.png" (by decide) (by decide) (by decide) (by decide)).1
